import Mathlib

/-!
# Verification of the nanobot agent core

Shallow embedding of the nanobot repository's core data model and
operations in Lean 4, with theorems settling the specification's claims.

Embedded components:
* `nanobot/providers/litellm_provider.py` — `LiteLLMProvider.chat` and
  `LiteLLMProvider._parse_response`;
* `nanobot/bus/queue.py` — `MessageBus`;
* `nanobot/agent/tools/message.py` — `MessageTool`;
* `nanobot/cli/commands.py` — `_make_provider`;
* `nanobot/providers/registry.py` — `find_by_model`;
* the Agent Loop (`AgentLoop.process_direct`), whose source module is not
  in the tree, is modelled from the specification (§4.4).

Python exceptions are modelled with `Except String`; Python dictionaries
and JSON values with a `JsonVal` inductive; keyword-argument binding of
Python calls with an explicit parameter-list model.
-/

namespace Nanobot

/-- A JSON value / parsed Python object, the shape of tool-call arguments. -/
inductive JsonVal where
  | null
  | bool (b : Bool)
  | num (n : Int)
  | str (s : String)
  | arr (xs : List JsonVal)
  | obj (fields : List (String × JsonVal))

/-- Whether a `JsonVal` is a structured key-to-value mapping (a JSON object). -/
def JsonVal.isObj : JsonVal → Bool
  | .obj _ => true
  | _ => false

/-- `ToolCallRequest` from `nanobot/providers/base.py`: id, tool name, and
parsed arguments.  The Python dataclass declares `arguments` as a mapping,
but `_parse_response` stores whatever the argument parse produced, so the
field is modelled as an arbitrary `JsonVal`. -/
structure ToolCallRequest where
  id : String
  name : String
  arguments : JsonVal

/-- `LLMResponse` from `nanobot/providers/base.py`: content (nullable),
ordered tool calls, finish reason, optional usage counters. -/
structure LLMResponse where
  content : Option String
  tool_calls : List ToolCallRequest
  finish_reason : String
  usage : List (String × Int)

/-! ## Raw backend response (the LiteLLM response object shape) -/

/-- Raw tool-call arguments as they arrive from the backend: either already
a parsed structure or a raw text string (the `isinstance(args, str)` branch
in `_parse_response`). -/
inductive RawArgs where
  | rawStr (s : String)
  | parsed (j : JsonVal)

/-- One entry of `message.tool_calls` in a LiteLLM response. -/
structure RawToolCall where
  id : String
  function_name : String
  function_arguments : RawArgs

/-- `choice.message` of a LiteLLM response.  `tool_calls` is `none` when the
attribute is absent or `None`; an empty list is falsy in Python and treated
the same way by `_parse_response`. -/
structure RawMessage where
  content : Option String
  tool_calls : Option (List RawToolCall)

/-- One element of `response.choices`. -/
structure RawChoice where
  message : RawMessage
  finish_reason : Option String

/-- `response.usage` token counters. -/
structure RawUsage where
  prompt_tokens : Int
  completion_tokens : Int
  total_tokens : Int
deriving Repr, DecidableEq

/-- The LiteLLM backend response consumed by `_parse_response`. -/
structure RawResponse where
  choices : List RawChoice
  usage : Option RawUsage

/-! ## json_repair model

`json_repair.loads` is an external library.  Its contract: it never raises;
it first attempts a strict JSON parse, falls back to a lenient repair pass,
and when even the repair cannot produce a value it returns the empty string
(not a mapping, and not a diagnostic).  The two passes are abstract
parameters so theorems can quantify over backend/parser behaviour. -/

/-- Model of `json_repair.loads`: strict parse, then lenient repair, then
the library's empty-string fallback; total, never raises. -/
def jsonRepairLoads (strictParse : String → Option JsonVal)
    (repair : String → Option JsonVal) (s : String) : JsonVal :=
  match strictParse s with
  | some v => v
  | none =>
    match repair s with
    | some v => v
    | none => .str ""

/-! ## `LiteLLMProvider._parse_response` -/

/-- The per-tool-call body of `_parse_response`: raw string arguments go
through `json_repair.loads`, already-parsed arguments pass unchanged. -/
def parseToolCall (strictParse repair : String → Option JsonVal)
    (tc : RawToolCall) : ToolCallRequest :=
  { id := tc.id
    name := tc.function_name
    arguments :=
      match tc.function_arguments with
      | .rawStr s => jsonRepairLoads strictParse repair s
      | .parsed j => j }

/-- `LiteLLMProvider._parse_response`.  `response.choices[0]` raises
`IndexError` on an empty list, modelled as `Except.error`; the
finish reason is `choice.finish_reason or "stop"` (Python falsy: `None`
or the empty string). -/
def parse_response (strictParse repair : String → Option JsonVal)
    (response : RawResponse) : Except String LLMResponse :=
  match response.choices with
  | [] => .error "IndexError: list index out of range"
  | choice :: _ =>
    let message := choice.message
    let tool_calls :=
      match message.tool_calls with
      | none => []
      | some tcs => tcs.map (parseToolCall strictParse repair)
    let usage :=
      match response.usage with
      | none => []
      | some u =>
          [("prompt_tokens", u.prompt_tokens),
           ("completion_tokens", u.completion_tokens),
           ("total_tokens", u.total_tokens)]
    .ok
      { content := message.content
        tool_calls := tool_calls
        finish_reason :=
          match choice.finish_reason with
          | none => "stop"
          | some s => if s = "" then "stop" else s
        usage := usage }

/-! ## `LiteLLMProvider.chat` -/

/-- The error response built in `chat`'s `except` clause. -/
def chatErrorResponse (e : String) : LLMResponse :=
  { content := some ("Error calling LLM: " ++ e)
    tool_calls := []
    finish_reason := "error"
    usage := [] }

/-- `LiteLLMProvider.chat`'s try/except around the backend call and the
response parse.  `backend` is the outcome of `await acompletion(**kwargs)`:
either a raw response or a raised exception.  The result is `Except` so
that "chat never propagates an exception" is a provable statement rather
than a typing artefact. -/
def chat (strictParse repair : String → Option JsonVal)
    (backend : Except String RawResponse) : Except String LLMResponse :=
  match backend >>= parse_response strictParse repair with
  | .ok resp => .ok resp
  | .error e => .ok (chatErrorResponse e)

/-- `max_tokens = max(1, max_tokens)` in `chat`. -/
def clampMaxTokens (max_tokens : Int) : Int := max 1 max_tokens

/-- `model = model or self.default_model` (Python falsy: `None` or `""`). -/
def resolveModel (default_model : String) (model : Option String) : String :=
  match model with
  | none => default_model
  | some m => if m = "" then default_model else m

/-- The `tools` / `tool_choice` entries of the kwargs sent to the backend:
present iff the `tools` argument is truthy (non-`None` and non-empty), and
then `tool_choice` is `"auto"`. -/
def chatToolsKwargs (tools : Option (List JsonVal)) :
    Option (List JsonVal) × Option String :=
  match tools with
  | none => (none, none)
  | some ts => if ts.isEmpty then (none, none) else (some ts, some "auto")

/-- The request-shaping part of `chat`: what is actually sent to the
backend for the request parameters the claims are about. -/
structure SentRequest where
  model : String
  max_tokens : Int
  tools : Option (List JsonVal)
  tool_choice : Option String

/-- The kwargs `chat` builds before calling `acompletion`. -/
def buildRequest (default_model : String) (model : Option String)
    (max_tokens : Int) (tools : Option (List JsonVal)) : SentRequest :=
  { model := resolveModel default_model model
    max_tokens := clampMaxTokens max_tokens
    tools := (chatToolsKwargs tools).1
    tool_choice := (chatToolsKwargs tools).2 }

/-! ## `MessageBus` (`nanobot/bus/queue.py`)

Two independent `asyncio.Queue`s.  Each queue is modelled as the list of
published-but-not-yet-consumed messages, front = oldest.  `put` appends at
the back, `get` removes the front (returning `none` when the consumer would
block on an empty queue), `qsize` is the length. -/

/-- `UserMessage` from `nanobot/bus/events.py` (timestamp abstracted). -/
structure UserMessage where
  content : String
  timestamp : Nat
deriving Repr, DecidableEq

/-- `AssistantMessage` from `nanobot/bus/events.py` (timestamp abstracted). -/
structure AssistantMessage where
  content : String
  timestamp : Nat
deriving Repr, DecidableEq

/-- `MessageBus`: two independent FIFO channels. -/
structure MessageBus where
  inbound : List UserMessage
  outbound : List AssistantMessage
deriving Repr, DecidableEq

/-- A freshly constructed bus: both queues empty. -/
def MessageBus.empty : MessageBus := ⟨[], []⟩

/-- `publish_inbound`: `self.inbound.put(msg)`. -/
def MessageBus.publish_inbound (bus : MessageBus) (m : UserMessage) : MessageBus :=
  { bus with inbound := bus.inbound ++ [m] }

/-- `consume_inbound`: `self.inbound.get()`; `none` models blocking on empty. -/
def MessageBus.consume_inbound (bus : MessageBus) :
    Option (UserMessage × MessageBus) :=
  match bus.inbound with
  | [] => none
  | m :: rest => some (m, { bus with inbound := rest })

/-- `publish_outbound`: `self.outbound.put(msg)`. -/
def MessageBus.publish_outbound (bus : MessageBus) (m : AssistantMessage) : MessageBus :=
  { bus with outbound := bus.outbound ++ [m] }

/-- `consume_outbound`: `self.outbound.get()`; `none` models blocking on empty. -/
def MessageBus.consume_outbound (bus : MessageBus) :
    Option (AssistantMessage × MessageBus) :=
  match bus.outbound with
  | [] => none
  | m :: rest => some (m, { bus with outbound := rest })

/-- `inbound_size`: `self.inbound.qsize()` (non-blocking). -/
def MessageBus.inbound_size (bus : MessageBus) : Nat := bus.inbound.length

/-- `outbound_size`: `self.outbound.qsize()` (non-blocking). -/
def MessageBus.outbound_size (bus : MessageBus) : Nat := bus.outbound.length

/-- An operation on the bus, used to quantify over arbitrary interleavings
of publishes on the two channels. -/
inductive BusOp where
  | pubIn (m : UserMessage)
  | pubOut (m : AssistantMessage)
deriving Repr, DecidableEq

/-- Apply a sequence of publish operations to a bus. -/
def MessageBus.applyOps (bus : MessageBus) : List BusOp → MessageBus
  | [] => bus
  | .pubIn m :: ops => (bus.publish_inbound m).applyOps ops
  | .pubOut m :: ops => (bus.publish_outbound m).applyOps ops

/-- The user messages of an operation sequence, in publish order. -/
def inboundOf (ops : List BusOp) : List UserMessage :=
  ops.filterMap fun op =>
    match op with
    | .pubIn m => some m
    | .pubOut _ => none

/-- The assistant messages of an operation sequence, in publish order. -/
def outboundOf (ops : List BusOp) : List AssistantMessage :=
  ops.filterMap fun op =>
    match op with
    | .pubIn _ => none
    | .pubOut m => some m

/-! ## Python keyword-argument binding

Claims about `MessageTool.execute` and `_make_provider` depend on how
Python binds a keyword-argument mapping against a function signature:
every parameter without a default must be supplied, and a keyword not
matching any declared parameter raises `TypeError` unless the signature
has a `**kwargs` catch-all. -/

/-- One declared parameter of a Python signature: its name and whether it
is required (has no default). -/
structure PyParam where
  name : String
  required : Bool
deriving Repr, DecidableEq

/-- Whether calling `f(**args)` binds successfully: all required
parameters present, and (unless the signature ends in `**kwargs`) every
provided keyword matches a declared parameter.  `false` means the call
raises `TypeError` before the body runs. -/
def bindKwargs (params : List PyParam) (hasVarKw : Bool)
    (args : List (String × JsonVal)) : Bool :=
  params.all (fun p => !p.required || args.any (fun a => a.1 = p.name)) &&
  (hasVarKw || args.all (fun a => params.any (fun p => p.name = a.1)))

/-! ## `MessageTool` (`nanobot/agent/tools/message.py`) -/

/-- `MessageTool.name`. -/
def MessageTool.name : String := "message"

/-- The signature of `async def execute(self, content: str, **kwargs)`:
one required parameter `content`, plus a `**kwargs` catch-all. -/
def MessageTool.executeParams : List PyParam := [⟨"content", true⟩]

/-- The body of `MessageTool.execute`: it ignores its arguments and
returns the fixed acknowledgment. -/
def MessageTool.executeBody : String := "Message displayed"

/-- Invoking `MessageTool.execute(**args)`: Python first binds the keyword
mapping against the signature (raising `TypeError` when `content` is
missing), then runs the body, which always returns the acknowledgment. -/
def MessageTool.executeCall (args : List (String × JsonVal)) :
    Except String String :=
  if bindKwargs MessageTool.executeParams true args then
    .ok MessageTool.executeBody
  else
    .error "TypeError: execute() missing 1 required positional argument: content"

/-! ## Provider registry (`nanobot/providers/registry.py`) and
`_make_provider` (`nanobot/cli/commands.py`) -/

/-- The fields of `ProviderSpec` that `_make_provider` consults. -/
structure ProviderSpec where
  name : String
  keywords : List String
deriving Repr, DecidableEq

/-- The `PROVIDERS` tuple: OpenRouter only. -/
def PROVIDERS : List ProviderSpec := [⟨"openrouter", ["openrouter"]⟩]

/-- Whether `needle` occurs as a contiguous run of `haystack`. -/
def subAt (needle : List Char) : List Char → Bool
  | [] => needle.isEmpty
  | c :: rest => needle.isPrefixOf (c :: rest) || subAt needle rest

/-- Python `kw in model_lower` substring test. -/
def strContains (haystack needle : String) : Bool :=
  subAt needle.data haystack.data

/-- `find_by_model`: match a provider by model-name keyword. -/
def find_by_model (model : String) : Option ProviderSpec :=
  PROVIDERS.find? fun spec =>
    spec.keywords.any fun kw => strContains model.toLower kw

/-- `model.split("/")[-1] if "/" in model else model`. -/
def modelLastComponent (model : String) : String :=
  if strContains model "/" then
    (model.splitOn "/").getLastD model
  else model

/-- The configuration fields `_make_provider` reads, mirroring
`Config.get_api_key` / `Config.get_api_base` from `nanobot/config/schema.py`. -/
structure ProviderConfigView where
  default_model : String
  openrouter_api_key : String
  openrouter_api_base : Option String
  ollama_api_key : String
  ollama_api_base : Option String
deriving Repr, DecidableEq

/-- `Config.get_api_key`. -/
def ProviderConfigView.get_api_key (c : ProviderConfigView)
    (provider : Option String) : String :=
  if provider = some "ollama" then c.ollama_api_key else c.openrouter_api_key

/-- `Config.get_api_base`. -/
def ProviderConfigView.get_api_base (c : ProviderConfigView)
    (provider : Option String) : String :=
  if provider = some "ollama" then
    match c.ollama_api_base with
    | some b => if b = "" then "http://localhost:11434" else b
    | none => "http://localhost:11434"
  else
    match c.openrouter_api_base with
    | some b => if b = "" then "https://openrouter.ai/api/v1" else b
    | none => "https://openrouter.ai/api/v1"

/-- The keyword names `_make_provider` passes to the `LiteLLMProvider`
constructor call. -/
def makeProviderCallKeywords : List String :=
  ["api_key", "api_base", "default_model", "provider_name"]

/-- The signature of `LiteLLMProvider.__init__` (besides `self`): three
optional parameters and no `**kwargs` catch-all. -/
def liteLLMInitParams : List PyParam :=
  [⟨"api_key", false⟩, ⟨"api_base", false⟩, ⟨"default_model", false⟩]

/-- Whether a keyword-name list binds against a signature (the name-level
version of `bindKwargs`, for calls whose values are not JSON). -/
def bindKeywordNames (params : List PyParam) (hasVarKw : Bool)
    (keys : List String) : Bool :=
  params.all (fun p => !p.required || keys.any (fun k => k = p.name)) &&
  (hasVarKw || keys.all (fun k => params.any (fun p => p.name = k)))

/-- The possible outcomes of `_make_provider`. -/
inductive MakeProviderResult where
  | exitNoKey
  | typeError
  | provider (api_key : String) (api_base : String) (default_model : String)
deriving Repr, DecidableEq

/-- `_make_provider` from `nanobot/cli/commands.py`: resolve the model,
detect the provider by keyword, fetch key and base, exit when no key is
configured (non-Ollama), then call the `LiteLLMProvider` constructor —
which receives a `provider_name` keyword its signature does not declare. -/
def make_provider (config : ProviderConfigView) (model : Option String) :
    MakeProviderResult :=
  let model := match model with
    | none => config.default_model
    | some m => if m = "" then config.default_model else m
  let model_only := modelLastComponent model
  let spec := find_by_model model_only
  let provider_name : Option String := spec.map (·.name)
  let api_key :=
    if provider_name = some "ollama" then config.get_api_key (some "ollama")
    else config.get_api_key none
  let api_base :=
    if provider_name = some "ollama" then config.get_api_base (some "ollama")
    else config.get_api_base none
  if api_key = "" && provider_name ≠ some "ollama" then
    .exitNoKey
  else if bindKeywordNames liteLLMInitParams false makeProviderCallKeywords then
    .provider api_key api_base model
  else
    .typeError

/-! ## Agent Loop

Modelled from the spec: `AgentLoop.process_direct` lives in
`nanobot/agent/loop.py`, which is not under `src/` (only its caller,
`nanobot/cli/commands.py`, is).  The definitions below follow §4.4 of the
specification word by word: append the user message; loop up to
`max_iterations` times calling the Provider; a `finish_reason = "error"`
response or a response without tool calls is terminal; otherwise dispatch
each requested tool in issuance order (unknown tools and raising tools
yield error ToolResults), append the tool-role answers, and continue; on
exhausting the cap synthesize an explicit limit message; finally trim the
session history to the memory window, never evicting a pinned leading
system message. -/

/-- Message roles of the session history. -/
inductive Role where
  | system
  | user
  | assistant
  | tool
deriving Repr, DecidableEq

/-- A session-history message (spec §3): role, content, tool-call requests
for assistant messages, and the answering call id plus error flag for
tool-role messages. -/
structure Message where
  role : Role
  content : String
  tool_calls : List ToolCallRequest
  tool_call_id : Option String
  is_error : Bool

/-- A plain user message. -/
def userMessage (text : String) : Message :=
  ⟨.user, text, [], none, false⟩

/-- A plain assistant message. -/
def assistantMessage (text : String) : Message :=
  ⟨.assistant, text, [], none, false⟩

/-- A registered tool: name together with its execution function, which
may raise (`Except.error`). -/
def ToolRegistry : Type := List (String × (JsonVal → Except String String))

/-- Modelled from the spec (§4.4 step 2d): resolve a tool call by name —
unknown tools yield an error ToolResult with a descriptive message instead
of failing the turn — then execute it, converting any raised exception
into an error ToolResult.  Returns (content, is_error). -/
def dispatchToolCall (tools : ToolRegistry) (req : ToolCallRequest) :
    String × Bool :=
  match tools.find? (fun t => t.1 = req.name) with
  | none => ("Error: unknown tool: " ++ req.name, true)
  | some t =>
    match t.2 req.arguments with
    | .ok out => (out, false)
    | .error e => ("Error: " ++ e, true)

/-- The tool-role message answering one request, tagged with its call id. -/
def toolResultMessage (tools : ToolRegistry) (req : ToolCallRequest) : Message :=
  let r := dispatchToolCall tools req
  ⟨.tool, r.1, [], some req.id, r.2⟩

/-- The assistant message recording a tool-requesting response. -/
def assistantToolCallMessage (resp : LLMResponse) : Message :=
  ⟨.assistant, resp.content.getD "", resp.tool_calls, none, false⟩

/-- Modelled from the spec (§4.4 step 3): the synthesized final answer
when `max_iterations` is exhausted without a non-tool-call response. -/
def iterationLimitMessage : String :=
  "Reached the maximum number of tool iterations without a final answer."

/-- The outcome of a turn: final answer, trimmed stored history, the
pre-trim history (for stating eviction properties), the number of Provider
calls made, and the progress notifications in emission order. -/
structure TurnResult where
  final : String
  history : List Message
  pre_trim : List Message
  provider_calls : Nat
  progress : List String

/-- Modelled from the spec (§4.4 step 2): the iterate-call-dispatch cycle.
`provider` abstracts `Provider.chat` over the current history (the
Provider contract never raises); `fuel` is the remaining iterations;
`calls` counts Provider calls made so far; `prog` accumulates progress
notifications.  Returns (final answer, pre-trim history, calls, progress). -/
def runLoop (provider : List Message → LLMResponse) (tools : ToolRegistry) :
    Nat → List Message → Nat → List String →
    String × List Message × Nat × List String
  | 0, hist, calls, prog => (iterationLimitMessage, hist, calls, prog)
  | fuel + 1, hist, calls, prog =>
    let resp := provider hist
    if resp.finish_reason = "error" then
      (resp.content.getD "", hist ++ [assistantMessage (resp.content.getD "")],
       calls + 1, prog)
    else if resp.tool_calls.isEmpty then
      (resp.content.getD "", hist ++ [assistantMessage (resp.content.getD "")],
       calls + 1, prog)
    else
      runLoop provider tools fuel
        (hist ++ [assistantToolCallMessage resp] ++
          resp.tool_calls.map (toolResultMessage tools))
        (calls + 1)
        (prog ++ resp.tool_calls.map (fun req => "running " ++ req.name))

/-- Modelled from the spec (§3, §4.4 step 4): evict the oldest non-pinned
messages until the history length is at most `N`; a pinned leading system
message is never evicted. -/
def trimHistory (N : Nat) : List Message → List Message
  | [] => []
  | m :: rest =>
    if m.role = Role.system then
      m :: rest.drop (rest.length - (N - 1))
    else
      (m :: rest).drop ((m :: rest).length - N)

/-- Modelled from the spec: `AgentLoop.process_direct` (§4.4), not under
`src/`.  Appends the user message to the session history, runs the loop up
to `max_iterations` times, and applies the memory-window trim before
returning. -/
def process_direct (provider : List Message → LLMResponse)
    (tools : ToolRegistry) (max_iterations memory_window : Nat)
    (hist0 : List Message) (user_text : String) : TurnResult :=
  let r := runLoop provider tools max_iterations
    (hist0 ++ [userMessage user_text]) 0 []
  { final := r.1
    history := trimHistory memory_window r.2.1
    pre_trim := r.2.1
    provider_calls := r.2.2.1
    progress := r.2.2.2 }

/-! ## Draining a queue by repeated consumption

`drainInbound` consumes messages one by one until the queue is empty; the
fuel argument (the queue size) makes the recursion structural. -/

/-- Consume up to `fuel` inbound messages, in consumption order. -/
def drainInboundGo : Nat → MessageBus → List UserMessage
  | 0, _ => []
  | fuel + 1, bus =>
    match bus.consume_inbound with
    | none => []
    | some p => p.1 :: drainInboundGo fuel p.2

/-- All inbound messages, in the order repeated `consume_inbound` returns
them. -/
def MessageBus.drainInbound (bus : MessageBus) : List UserMessage :=
  drainInboundGo bus.inbound_size bus

/-- Consume up to `fuel` outbound messages, in consumption order. -/
def drainOutboundGo : Nat → MessageBus → List AssistantMessage
  | 0, _ => []
  | fuel + 1, bus =>
    match bus.consume_outbound with
    | none => []
    | some p => p.1 :: drainOutboundGo fuel p.2

/-- All outbound messages, in the order repeated `consume_outbound` returns
them. -/
def MessageBus.drainOutbound (bus : MessageBus) : List AssistantMessage :=
  drainOutboundGo bus.outbound_size bus

/-! ## Concrete values used to instantiate theorems -/

/-- A parse pass that always fails, exercising `json_repair`'s fallback. -/
def noParse : String → Option JsonVal := fun _ => none

/-- A backend tool call whose raw argument text is irreparable. -/
def rawCallOops : RawToolCall := ⟨"call_1", "message", .rawStr "oops"⟩

/-- A backend response carrying `rawCallOops`. -/
def respOops : RawResponse :=
  ⟨[⟨⟨none, some [rawCallOops]⟩, some "tool_calls"⟩], none⟩

/-- A successful backend response whose own finish reason is `"error"`. -/
def respBackendErrorReason : RawResponse :=
  ⟨[⟨⟨some "bad", none⟩, some "error"⟩], none⟩

/-- A successful backend response with no finish reason. -/
def respNoFinishReason : RawResponse :=
  ⟨[⟨⟨some "4", none⟩, none⟩], none⟩

/-- A provider that immediately returns a plain answer. -/
def stopProvider : List Message → LLMResponse :=
  fun _ => ⟨some "4", [], "stop", []⟩

/-- A pinned leading system message. -/
def sysMsgEx : Message := ⟨.system, "You are nanobot.", [], none, false⟩

/-- An example configuration with a non-empty OpenRouter API key. -/
def cfgEx : ProviderConfigView :=
  ⟨"openrouter/anthropic/claude-3-5-sonnet", "sk-or-v1-test", none, "", none⟩

/-! # Theorems settling the claims -/

/-- C1: for every outcome of the backend call — a raw response or a raised
exception — and every exception raised while parsing the response,
`LiteLLMProvider.chat` returns an `LLMResponse` (it never propagates an
exception), and whenever an exception `e` occurred in the backend call or
the parse, the returned response has the human-readable content
`"Error calling LLM: " ++ e` and finish_reason `"error"`. -/
theorem chat_never_propagates (strictParse repair : String → Option JsonVal)
    (backend : Except String RawResponse) :
    (∃ resp, chat strictParse repair backend = .ok resp) ∧
    (∀ e, backend >>= parse_response strictParse repair = .error e →
      ∃ resp, chat strictParse repair backend = .ok resp ∧
        resp.content = some ("Error calling LLM: " ++ e) ∧
        resp.finish_reason = "error") := by
  constructor
  · cases h : backend >>= parse_response strictParse repair with
    | ok r => exact ⟨r, by unfold chat; rw [h]⟩
    | error e => exact ⟨chatErrorResponse e, by unfold chat; rw [h]⟩
  · intro e he
    refine ⟨chatErrorResponse e, by unfold chat; rw [he], rfl, rfl⟩

/-- Witness for C1: a raised transport fault `"Connection error"` is turned
into an ok error response. -/
theorem chat_never_propagates_witness :
    ∃ resp, chat noParse noParse (.error "Connection error") = .ok resp ∧
      resp.content = some ("Error calling LLM: " ++ "Connection error") ∧
      resp.finish_reason = "error" :=
  (chat_never_propagates noParse noParse (.error "Connection error")).2
    "Connection error" rfl

/-- C6: the `max_tokens` value actually sent to the backend is
`max 1 max_tokens`: at least 1, equal to 1 for inputs below 1, and passed
unchanged for inputs of 1 or more. -/
theorem chat_clamps_max_tokens (default_model : String)
    (model : Option String) (mt : Int) (tools : Option (List JsonVal)) :
    1 ≤ (buildRequest default_model model mt tools).max_tokens ∧
    (mt < 1 → (buildRequest default_model model mt tools).max_tokens = 1) ∧
    (1 ≤ mt → (buildRequest default_model model mt tools).max_tokens = mt) := by
  refine ⟨le_max_left 1 mt, fun h => ?_, fun h => ?_⟩
  · exact max_eq_left (le_of_lt h)
  · exact max_eq_right h

/-- Witness for C6: a negative `max_tokens` request is sent as 1, and a
request of 4096 is sent unchanged. -/
theorem chat_clamps_max_tokens_witness :
    (buildRequest "m" none (-5) none).max_tokens = 1 ∧
    (buildRequest "m" none 4096 none).max_tokens = 4096 :=
  ⟨(chat_clamps_max_tokens "m" none (-5) none).2.1 (by decide),
   (chat_clamps_max_tokens "m" none 4096 none).2.2 (by decide)⟩

/-- C7: the tool schema list is sent iff it is non-empty — an absent or
empty list yields neither `tools` nor `tool_choice` in the request, and a
non-empty list is passed through unchanged together with
`tool_choice = "auto"`. -/
theorem chat_tools_passthrough (default_model : String)
    (model : Option String) (mt : Int) (tools : Option (List JsonVal)) :
    ((tools = none ∨ tools = some []) →
      (buildRequest default_model model mt tools).tools = none ∧
      (buildRequest default_model model mt tools).tool_choice = none) ∧
    (∀ ts, tools = some ts → ts ≠ [] →
      (buildRequest default_model model mt tools).tools = some ts ∧
      (buildRequest default_model model mt tools).tool_choice = some "auto") := by
  constructor
  · rintro (rfl | rfl) <;> exact ⟨rfl, rfl⟩
  · rintro ts rfl hne
    have : ts.isEmpty = false := by
      cases ts with
      | nil => exact absurd rfl hne
      | cons a l => rfl
    exact ⟨by simp [buildRequest, chatToolsKwargs, this],
           by simp [buildRequest, chatToolsKwargs, this]⟩

/-- Witness for C7: one non-empty schema list is passed with
`tool_choice = "auto"`; the empty list sends neither field. -/
theorem chat_tools_passthrough_witness :
    ((buildRequest "m" none 64 (some [JsonVal.obj []])).tools =
        some [JsonVal.obj []] ∧
      (buildRequest "m" none 64 (some [JsonVal.obj []])).tool_choice =
        some "auto") ∧
    ((buildRequest "m" none 64 (some [])).tools = none ∧
      (buildRequest "m" none 64 (some [])).tool_choice = none) :=
  ⟨(chat_tools_passthrough "m" none 64 (some [JsonVal.obj []])).2
      [JsonVal.obj []] rfl (by simp),
   (chat_tools_passthrough "m" none 64 (some [])).1 (Or.inr rfl)⟩

/-- C2 counterexample: when both the strict parse and the lenient repair
fail on the raw argument text `"oops"`, the tool call is forwarded with
the library fallback — the empty string — as its arguments: not a
structured key-to-value mapping, and with no diagnostic note attached
(the provider adds nothing to the parse outcome). -/
theorem parse_response_no_diagnostic_counterexample :
    parse_response noParse noParse respOops =
      .ok ⟨none, [⟨"call_1", "message", JsonVal.str ""⟩], "tool_calls", []⟩ ∧
    (JsonVal.str "").isObj = false := ⟨rfl, rfl⟩

/-- C2 amended: for every backend response whose first choice carries tool
calls, `_parse_response` forwards every tool call, in order, with its id
and name preserved; raw-string arguments are replaced by the outcome of
`json_repair.loads` (strict parse, then lenient repair, then the library's
empty-string fallback) exactly — the call is never dropped and the parse
never raises over the arguments, but no diagnostic note is attached and
the outcome need not be a mapping. -/
theorem parse_response_forwards_tool_calls
    (strictParse repair : String → Option JsonVal) (resp : RawResponse)
    (choice : RawChoice) (rest : List RawChoice)
    (hc : resp.choices = choice :: rest)
    (tcs : List RawToolCall) (htc : choice.message.tool_calls = some tcs) :
    ∃ r, parse_response strictParse repair resp = .ok r ∧
      r.tool_calls = tcs.map (parseToolCall strictParse repair) ∧
      r.tool_calls.map (fun tc => (tc.id, tc.name)) =
        tcs.map (fun tc => (tc.id, tc.function_name)) ∧
      ∀ tc ∈ tcs, ∀ s, tc.function_arguments = .rawStr s →
        (parseToolCall strictParse repair tc).arguments =
          jsonRepairLoads strictParse repair s := by
  obtain ⟨choices, usage⟩ := resp
  simp only at hc
  subst hc
  refine ⟨_, rfl, ?_, ?_, ?_⟩
  · simp only [parse_response, htc]
  · simp only [parse_response, htc, List.map_map]
    exact List.map_congr_left fun tc _ => rfl
  · intro tc _ s hs
    simp [parseToolCall, hs]

/-- Witness for C2 amended: the irreparable call in `respOops` is
forwarded with id `"call_1"`, name `"message"`, and the fallback
arguments. -/
theorem parse_response_forwards_tool_calls_witness :
    ∃ r, parse_response noParse noParse respOops = .ok r ∧
      r.tool_calls = [rawCallOops].map (parseToolCall noParse noParse) ∧
      r.tool_calls.map (fun tc => (tc.id, tc.name)) =
        [rawCallOops].map (fun tc => (tc.id, tc.function_name)) ∧
      ∀ tc ∈ [rawCallOops], ∀ s, tc.function_arguments = .rawStr s →
        (parseToolCall noParse noParse tc).arguments =
          jsonRepairLoads noParse noParse s :=
  parse_response_forwards_tool_calls noParse noParse respOops
    ⟨⟨none, some [rawCallOops]⟩, some "tool_calls"⟩ [] rfl [rawCallOops] rfl

/-- C8 counterexample: invoked with the empty argument mapping,
`MessageTool.execute(**args)` does not succeed — Python keyword binding
raises `TypeError` because the required parameter `content` is missing. -/
theorem messageTool_execute_counterexample :
    MessageTool.executeCall [] =
      .error
        "TypeError: execute() missing 1 required positional argument: content" :=
  rfl

/-- C8 amended: for every argument mapping that contains the key
`"content"`, `MessageTool.execute` succeeds and returns the fixed
acknowledgment `"Message displayed"`; a mapping without that key raises
`TypeError` at argument binding. -/
theorem messageTool_execute_ok (args : List (String × JsonVal))
    (h : args.any (fun a => a.1 = "content") = true) :
    MessageTool.executeCall args = .ok "Message displayed" := by
  simp [MessageTool.executeCall, bindKwargs, MessageTool.executeParams,
    MessageTool.executeBody, h]

/-- Witness for C8 amended: the mapping `{content: "hi"}` succeeds. -/
theorem messageTool_execute_ok_witness :
    MessageTool.executeCall [("content", JsonVal.str "hi")] =
      .ok "Message displayed" :=
  messageTool_execute_ok [("content", JsonVal.str "hi")] (by decide)

/-- C10 counterexample: a successful backend response that itself reports
`finish_reason = "error"` is passed through unchanged, so finish_reason
`"error"` can arise on the success path too, not only from the exception
path. -/
theorem chat_finish_reason_error_passthrough_counterexample :
    (chat noParse noParse (.ok respBackendErrorReason)).map
      (fun r => r.finish_reason) = .ok "error" := rfl

/-- C10 amended: for every successful backend response with a first
choice, the parsed finish_reason is never empty: it is `"stop"` when the
backend's finish reason is missing or empty, and otherwise the backend's
own value passed through unchanged — so `chat` itself synthesizes
`"error"` only on the exception path, while an `"error"` on the success
path occurs exactly when the backend itself reported it. -/
theorem parse_response_finish_reason
    (strictParse repair : String → Option JsonVal) (resp : RawResponse)
    (choice : RawChoice) (rest : List RawChoice)
    (hc : resp.choices = choice :: rest) :
    ∃ r, parse_response strictParse repair resp = .ok r ∧
      r.finish_reason ≠ "" ∧
      ((choice.finish_reason = none ∨ choice.finish_reason = some "") →
        r.finish_reason = "stop") ∧
      (∀ s, choice.finish_reason = some s → s ≠ "" → r.finish_reason = s) := by
  obtain ⟨choices, usage⟩ := resp
  simp only at hc
  subst hc
  refine ⟨_, rfl, ?_, ?_, ?_⟩
  · simp only [parse_response]
    cases h : choice.finish_reason with
    | none => simp
    | some s =>
      by_cases hs : s = "" <;> simp [hs]
  · rintro (h | h) <;> simp [parse_response, h]
  · intro s h hs
    simp [parse_response, h, hs]

/-- Witness for C10 amended: a response with no finish reason is returned
with finish_reason `"stop"`. -/
theorem parse_response_finish_reason_witness :
    ∃ r, parse_response noParse noParse respNoFinishReason = .ok r ∧
      r.finish_reason ≠ "" ∧
      (((⟨⟨some "4", none⟩, none⟩ : RawChoice).finish_reason = none ∨
          (⟨⟨some "4", none⟩, none⟩ : RawChoice).finish_reason = some "") →
        r.finish_reason = "stop") ∧
      (∀ s, (⟨⟨some "4", none⟩, none⟩ : RawChoice).finish_reason = some s →
        s ≠ "" → r.finish_reason = s) :=
  parse_response_finish_reason noParse noParse respNoFinishReason
    ⟨⟨some "4", none⟩, none⟩ [] rfl

/-- Draining a queue by repeated consumption returns exactly its pending
list. -/
theorem drainInboundGo_eq (l : List UserMessage) :
    ∀ out, drainInboundGo l.length ⟨l, out⟩ = l := by
  induction l with
  | nil => intro out; rfl
  | cons m rest ih =>
    intro out
    simpa [drainInboundGo, MessageBus.consume_inbound] using ih out

/-- Draining the outbound queue returns exactly its pending list. -/
theorem drainOutboundGo_eq (l : List AssistantMessage) :
    ∀ input, drainOutboundGo l.length ⟨input, l⟩ = l := by
  induction l with
  | nil => intro input; rfl
  | cons m rest ih =>
    intro input
    simpa [drainOutboundGo, MessageBus.consume_outbound] using ih input

/-- `drainInbound` returns the inbound queue's contents in order. -/
theorem MessageBus.drainInbound_eq (bus : MessageBus) :
    bus.drainInbound = bus.inbound := by
  obtain ⟨l, out⟩ := bus
  exact drainInboundGo_eq l out

/-- `drainOutbound` returns the outbound queue's contents in order. -/
theorem MessageBus.drainOutbound_eq (bus : MessageBus) :
    bus.drainOutbound = bus.outbound := by
  obtain ⟨l, out⟩ := bus
  exact drainOutboundGo_eq out l

/-- After any sequence of publishes, each queue holds exactly its own
published messages, in publish order. -/
theorem applyOps_contents (ops : List BusOp) :
    ∀ bus : MessageBus,
      (bus.applyOps ops).inbound = bus.inbound ++ inboundOf ops ∧
      (bus.applyOps ops).outbound = bus.outbound ++ outboundOf ops := by
  induction ops with
  | nil => intro bus; simp [MessageBus.applyOps, inboundOf, outboundOf]
  | cons op rest ih =>
    intro bus
    cases op with
    | pubIn m =>
      have h := ih (bus.publish_inbound m)
      simp only [MessageBus.applyOps, MessageBus.publish_inbound] at h
      simp [MessageBus.applyOps, MessageBus.publish_inbound, inboundOf,
        outboundOf, List.filterMap_cons, h.1, h.2]
    | pubOut m =>
      have h := ih (bus.publish_outbound m)
      simp only [MessageBus.applyOps, MessageBus.publish_outbound] at h
      simp [MessageBus.applyOps, MessageBus.publish_outbound, inboundOf,
        outboundOf, List.filterMap_cons, h.1, h.2]

/-- C5: the MessageBus holds two independent unbounded FIFO channels.  For
every interleaving of publishes on the two channels: repeatedly consuming
the inbound (resp. outbound) queue returns exactly the user (resp.
assistant) messages published, in publish order, regardless of the
interleaving (no cross-queue ordering); the non-blocking size accessors
count the published-but-not-yet-consumed messages; and each consume
operation removes exactly the front of its own queue, leaving the other
queue untouched. -/
theorem messageBus_fifo (ops : List BusOp) :
    (MessageBus.empty.applyOps ops).drainInbound = inboundOf ops ∧
    (MessageBus.empty.applyOps ops).drainOutbound = outboundOf ops ∧
    (MessageBus.empty.applyOps ops).inbound_size = (inboundOf ops).length ∧
    (MessageBus.empty.applyOps ops).outbound_size = (outboundOf ops).length ∧
    (∀ (m : UserMessage) ms out,
      (MessageBus.mk (m :: ms) out).consume_inbound = some (m, ⟨ms, out⟩)) ∧
    (∀ input (m : AssistantMessage) ms,
      (MessageBus.mk input (m :: ms)).consume_outbound =
        some (m, ⟨input, ms⟩)) := by
  obtain ⟨hi, ho⟩ := applyOps_contents ops MessageBus.empty
  refine ⟨?_, ?_, ?_, ?_, fun m ms out => rfl, fun input m ms => rfl⟩
  · rw [MessageBus.drainInbound_eq, hi]; simp [MessageBus.empty]
  · rw [MessageBus.drainOutbound_eq, ho]; simp [MessageBus.empty]
  · rw [MessageBus.inbound_size, hi]; simp [MessageBus.empty]
  · rw [MessageBus.outbound_size, ho]; simp [MessageBus.empty]

/-- Each loop iteration makes exactly one Provider call, so the call count
is bounded by the remaining fuel. -/
theorem runLoop_calls_le (provider : List Message → LLMResponse)
    (tools : ToolRegistry) :
    ∀ (fuel : Nat) (hist : List Message) (calls : Nat) (prog : List String),
      (runLoop provider tools fuel hist calls prog).2.2.1 ≤ calls + fuel := by
  intro fuel
  induction fuel with
  | zero => intro hist calls prog; simp [runLoop]
  | succ n ih =>
    intro hist calls prog
    by_cases h1 : (provider hist).finish_reason = "error"
    · have h : (runLoop provider tools (n + 1) hist calls prog).2.2.1 =
          calls + 1 := by simp [runLoop, h1]
      omega
    · by_cases h2 : (provider hist).tool_calls.isEmpty
      · have h : (runLoop provider tools (n + 1) hist calls prog).2.2.1 =
            calls + 1 := by simp [runLoop, h1, h2]
        omega
      · have heq : runLoop provider tools (n + 1) hist calls prog =
            runLoop provider tools n
              (hist ++ [assistantToolCallMessage (provider hist)] ++
                (provider hist).tool_calls.map (toolResultMessage tools))
              (calls + 1)
              (prog ++ (provider hist).tool_calls.map
                (fun req => "running " ++ req.name)) := by
          simp [runLoop, h1, h2]
        rw [heq]
        have := ih
          (hist ++ [assistantToolCallMessage (provider hist)] ++
            (provider hist).tool_calls.map (toolResultMessage tools))
          (calls + 1)
          (prog ++ (provider hist).tool_calls.map
            (fun req => "running " ++ req.name))
        omega

/-- The loop only appends to the history it is given. -/
theorem runLoop_hist_append (provider : List Message → LLMResponse)
    (tools : ToolRegistry) :
    ∀ (fuel : Nat) (hist : List Message) (calls : Nat) (prog : List String),
      ∃ tail, (runLoop provider tools fuel hist calls prog).2.1 =
        hist ++ tail := by
  intro fuel
  induction fuel with
  | zero => intro hist calls prog; exact ⟨[], by simp [runLoop]⟩
  | succ n ih =>
    intro hist calls prog
    by_cases h1 : (provider hist).finish_reason = "error"
    · exact ⟨[assistantMessage ((provider hist).content.getD "")],
        by simp [runLoop, h1]⟩
    · by_cases h2 : (provider hist).tool_calls.isEmpty
      · exact ⟨[assistantMessage ((provider hist).content.getD "")],
          by simp [runLoop, h1, h2]⟩
      · obtain ⟨tail, ht⟩ := ih
          (hist ++ [assistantToolCallMessage (provider hist)] ++
            (provider hist).tool_calls.map (toolResultMessage tools))
          (calls + 1)
          (prog ++ (provider hist).tool_calls.map
            (fun req => "running " ++ req.name))
        refine ⟨[assistantToolCallMessage (provider hist)] ++
          (provider hist).tool_calls.map (toolResultMessage tools) ++ tail, ?_⟩
        have heq : runLoop provider tools (n + 1) hist calls prog =
            runLoop provider tools n
              (hist ++ [assistantToolCallMessage (provider hist)] ++
                (provider hist).tool_calls.map (toolResultMessage tools))
              (calls + 1)
              (prog ++ (provider hist).tool_calls.map
                (fun req => "running " ++ req.name)) := by
          simp [runLoop, h1, h2]
        rw [heq, ht]
        simp

/-- The memory-window trim never leaves more than `N` messages when
`N ≥ 1`. -/
theorem trimHistory_length (N : Nat) (hN : 1 ≤ N) (xs : List Message) :
    (trimHistory N xs).length ≤ N := by
  cases xs with
  | nil => simp [trimHistory]
  | cons m rest =>
    by_cases h : m.role = Role.system
    · simp [trimHistory, h, List.length_drop]
      omega
    · simp [trimHistory, h, List.length_drop]
      omega

/-- C3: `AgentLoop.process_direct` makes at most `max_iterations` Provider
calls per turn, for every provider behaviour, tool registry, memory
window, starting history and user text. -/
theorem process_direct_provider_calls_le
    (provider : List Message → LLMResponse) (tools : ToolRegistry)
    (K N : Nat) (hist0 : List Message) (text : String) :
    (process_direct provider tools K N hist0 text).provider_calls ≤ K := by
  have h := runLoop_calls_le provider tools K (hist0 ++ [userMessage text]) 0 []
  simpa [process_direct] using h

/-- C4: after every completed turn, the stored session history has length
at most the memory window `N` (for `N ≥ 1`); when the starting history has
a pinned leading system message, that message is still the head of both
the pre-trim and the stored history and the remaining stored messages are
a suffix of the remaining pre-trim messages (the oldest non-pinned
messages are the ones evicted); without a leading system message the
stored history is a suffix of the pre-trim history. -/
theorem process_direct_memory_window
    (provider : List Message → LLMResponse) (tools : ToolRegistry)
    (K N : Nat) (hist0 : List Message) (text : String) (hN : 1 ≤ N) :
    (process_direct provider tools K N hist0 text).history.length ≤ N ∧
    (∀ sys rest, hist0 = sys :: rest → sys.role = Role.system →
      ∃ pretail tail,
        (process_direct provider tools K N hist0 text).pre_trim =
          sys :: pretail ∧
        (process_direct provider tools K N hist0 text).history =
          sys :: tail ∧
        tail <:+ pretail) ∧
    ((∀ m, hist0.head? = some m → m.role ≠ Role.system) →
      (process_direct provider tools K N hist0 text).history <:+
        (process_direct provider tools K N hist0 text).pre_trim) := by
  obtain ⟨tail, ht⟩ :=
    runLoop_hist_append provider tools K (hist0 ++ [userMessage text]) 0 []
  have hpre : (process_direct provider tools K N hist0 text).pre_trim =
      (hist0 ++ [userMessage text]) ++ tail := by
    simpa [process_direct] using ht
  have hhist : (process_direct provider tools K N hist0 text).history =
      trimHistory N ((hist0 ++ [userMessage text]) ++ tail) := by
    simp only [process_direct]
    rw [ht]
  refine ⟨?_, ?_, ?_⟩
  · rw [hhist]
    exact trimHistory_length N hN _
  · rintro sys rest rfl hrole
    have hshape : ((sys :: rest) ++ [userMessage text]) ++ tail =
        sys :: ((rest ++ [userMessage text]) ++ tail) := by simp
    refine ⟨(rest ++ [userMessage text]) ++ tail,
      ((rest ++ [userMessage text]) ++ tail).drop
        (((rest ++ [userMessage text]) ++ tail).length - (N - 1)), ?_, ?_, ?_⟩
    · rw [hpre, hshape]
    · rw [hhist, hshape]
      simp [trimHistory, hrole]
    · exact List.drop_suffix _ _
  · intro hhead
    rw [hhist, hpre]
    cases hist0 with
    | nil =>
      have hux : (([] ++ [userMessage text]) ++ tail : List Message) =
          userMessage text :: tail := by simp
      rw [hux]
      have : (userMessage text).role ≠ Role.system := by
        simp [userMessage]
      simp only [trimHistory, if_neg this]
      exact List.drop_suffix _ _
    | cons m rest =>
      have hm : m.role ≠ Role.system := hhead m rfl
      have hshape : ((m :: rest) ++ [userMessage text]) ++ tail =
          m :: ((rest ++ [userMessage text]) ++ tail) := by simp
      rw [hshape]
      simp only [trimHistory, if_neg hm]
      exact List.drop_suffix _ _

/-- Witness for C4: with a one-shot provider, a pinned system message and
window 2, the stored history length is at most 2. -/
theorem process_direct_memory_window_witness :
    (process_direct stopProvider [] 1 2 [sysMsgEx] "hi").history.length ≤ 2 :=
  (process_direct_memory_window stopProvider [] 1 2 [sysMsgEx] "hi"
    (by decide)).1

/-- The registry holds only the OpenRouter spec, so `find_by_model` either
finds nothing or finds OpenRouter. -/
theorem find_by_model_cases (m : String) :
    find_by_model m = none ∨
    find_by_model m = some ⟨"openrouter", ["openrouter"]⟩ := by
  unfold find_by_model PROVIDERS
  cases h : strContains m.toLower "openrouter" <;>
    simp [List.find?, h]

/-- The constructor call in `_make_provider` passes `provider_name`, which
`LiteLLMProvider.__init__` does not declare, so keyword binding fails. -/
theorem liteLLM_call_binding_fails :
    bindKeywordNames liteLLMInitParams false makeProviderCallKeywords =
      false := rfl

/-- C9: for every configuration whose (OpenRouter) API key is non-empty
and every requested model, `_make_provider` reaches the
`LiteLLMProvider(...)` constructor call and raises `TypeError`, because it
passes a `provider_name` keyword argument that
`LiteLLMProvider.__init__` does not accept; it never returns a provider. -/
theorem make_provider_raises_type_error (config : ProviderConfigView)
    (model : Option String) (hkey : config.openrouter_api_key ≠ "") :
    make_provider config model = .typeError := by
  have hc := find_by_model_cases (modelLastComponent (match model with
    | none => config.default_model
    | some m => if m = "" then config.default_model else m))
  unfold make_provider
  rcases hc with h | h <;>
    simp [h, ProviderConfigView.get_api_key, hkey,
      liteLLM_call_binding_fails]

/-- Witness for C9: the default configuration with the key
`"sk-or-v1-test"` hits the `TypeError`. -/
theorem make_provider_raises_type_error_witness :
    make_provider cfgEx none = .typeError :=
  make_provider_raises_type_error cfgEx none (by decide)

end Nanobot
